import Mathlib

/-!
Verification development for the amazing-gitlab-exporter repository.

The Go source is shallowly embedded: times are modelled as integer epoch
seconds, HTTP headers as strings (the empty string standing for an absent
header, mirroring http.Header.Get), metric vectors as association lists,
and floating point observation values as rationals.
-/

namespace AGE

/-! ## Go strconv.Atoi / strconv.ParseInt (base 10)

Both accept an optional leading sign followed by one or more decimal
digits, and fail on anything else (empty input, trailing garbage). -/

/-- Value of a non-empty all-digit character list, `none` if empty or if any
character is not a decimal digit. -/
def parseDigits (cs : List Char) : Option Nat :=
  if cs.isEmpty then none
  else
    cs.foldl
      (fun acc c =>
        acc.bind fun n => if c.isDigit then some (10 * n + (c.toNat - 48)) else none)
      (some 0)

/-- Model of Go strconv.Atoi (and of strconv.ParseInt with base 10): an
optional sign followed by decimal digits; anything else is a parse error. -/
def atoi? (s : String) : Option Int :=
  match s.data with
  | '+' :: rest => (parseDigits rest).map (fun n => (n : Int))
  | '-' :: rest => (parseDigits rest).map (fun n => -(n : Int))
  | cs => (parseDigits cs).map (fun n => (n : Int))

/-! ## Rate limiter (internal/gitlab, RateLimiter)

State and header-update logic translated from RateLimiter.UpdateFromHeaders.
Times are integer epoch seconds; the Go zero time.Time is modelled as 0,
which is far in the past relative to any realistic `now`. -/

/-- The mutable fields of RateLimiter that UpdateFromHeaders touches. -/
structure RLState where
  headerRemaining : Int
  headerReset : Int
  backoffUntil : Int
deriving Repr, DecidableEq

/-- Initial rate-limiter state as built by NewRateLimiter:
headerRemaining = -1 (unknown), zero times for reset and backoff. -/
def rlInit : RLState := { headerRemaining := -1, headerReset := 0, backoffUntil := 0 }

/-- The three response headers UpdateFromHeaders reads. An empty string
models an absent header, exactly as returned by http.Header.Get. -/
structure Headers where
  retryAfter : String
  rateLimitRemaining : String
  rateLimitReset : String
deriving Repr, DecidableEq

/-- Ceiling division for a positive divisor, the integer counterpart of
math.Ceil(float64 a / float64 b) used in UpdateFromHeaders. -/
def ceilDiv (a b : Int) : Int := Int.fdiv (a + b - 1) b

/-- Translation of RateLimiter.UpdateFromHeaders. Control flow mirrors the
Go source: the Retry-After block returns early only when the header parses
to a positive integer; a missing or unparseable RateLimit-Remaining or
RateLimit-Reset aborts processing with the state written so far; the
nearly-exhausted branch computes a per-request delay only when the reset
time is still in the future; every write to backoffUntil is guarded by
an `is it later than the current deadline` comparison. -/
def updateFromHeaders (st : RLState) (h : Headers) (now : Int) : RLState :=
  -- Retry-After (highest priority, returned on 429).
  match (if h.retryAfter = "" then none else atoi? h.retryAfter) with
  | some sec =>
    if 0 < sec then
      let u := now + sec
      if st.backoffUntil < u then { st with backoffUntil := u } else st
    else
      updateFromRateHeaders st h now
  | none => updateFromRateHeaders st h now
where
  /-- The RateLimit-Remaining / RateLimit-Reset part of UpdateFromHeaders. -/
  updateFromRateHeaders (st : RLState) (h : Headers) (now : Int) : RLState :=
    if h.rateLimitRemaining = "" then st
    else
      match atoi? h.rateLimitRemaining with
      | none => st
      | some remaining =>
        let st1 := { st with headerRemaining := remaining }
        if h.rateLimitReset = "" then st1
        else
          match atoi? h.rateLimitReset with
          | none => st1
          | some resetEpoch =>
            let st2 := { st1 with headerReset := resetEpoch }
            if remaining ≤ 0 then
              -- Exhausted: wait until reset.
              if st2.backoffUntil < resetEpoch then { st2 with backoffUntil := resetEpoch }
              else st2
            else if remaining < 10 then
              -- Nearly exhausted: spread remaining requests over the window.
              let untilReset := resetEpoch - now
              if 0 < untilReset then
                let perRequest := ceilDiv untilReset (remaining + 1)
                let u := now + perRequest
                if st2.backoffUntil < u then { st2 with backoffUntil := u } else st2
              else st2
            else st2

/-- The backoffUntil evolution exactly as the claim words it (three cases,
each a max-update, the nearly-exhausted case unconditional on the sign of
reset − now). Written from the specification, for comparison with the
source translation above. -/
def backoffUntilPerClaim (st : RLState) (h : Headers) (now : Int) : Int :=
  match (if h.retryAfter = "" then none else atoi? h.retryAfter) with
  | some sec =>
    if 0 < sec then max st.backoffUntil (now + sec)
    else backoffRatePerClaim st h now
  | none => backoffRatePerClaim st h now
where
  /-- Claim cases two and three, requiring parseable remaining and reset. -/
  backoffRatePerClaim (st : RLState) (h : Headers) (now : Int) : Int :=
    match (if h.rateLimitRemaining = "" then none else atoi? h.rateLimitRemaining),
        (if h.rateLimitReset = "" then none else atoi? h.rateLimitReset) with
    | some remaining, some resetEpoch =>
      if remaining ≤ 0 then max st.backoffUntil resetEpoch
      else if remaining < 10 then
        max st.backoffUntil (now + ceilDiv (resetEpoch - now) (remaining + 1))
      else st.backoffUntil
    | _, _ => st.backoffUntil

/-- The claim amended: identical to backoffUntilPerClaim except that the
nearly-exhausted case extends the deadline only when reset lies strictly
in the future; otherwise the deadline is left unchanged. -/
def backoffUntilAmended (st : RLState) (h : Headers) (now : Int) : Int :=
  match (if h.retryAfter = "" then none else atoi? h.retryAfter) with
  | some sec =>
    if 0 < sec then max st.backoffUntil (now + sec)
    else backoffRateAmended st h now
  | none => backoffRateAmended st h now
where
  /-- Amended cases two and three. -/
  backoffRateAmended (st : RLState) (h : Headers) (now : Int) : Int :=
    match (if h.rateLimitRemaining = "" then none else atoi? h.rateLimitRemaining),
        (if h.rateLimitReset = "" then none else atoi? h.rateLimitReset) with
    | some remaining, some resetEpoch =>
      if remaining ≤ 0 then max st.backoffUntil resetEpoch
      else if remaining < 10 then
        if 0 < resetEpoch - now then
          max st.backoffUntil (now + ceilDiv (resetEpoch - now) (remaining + 1))
        else st.backoffUntil
      else st.backoffUntil
    | _, _ => st.backoffUntil

/-- A sequence of UpdateFromHeaders calls, each with its own headers and
observation time, applied in order. -/
def applyUpdates (st : RLState) (us : List (Headers × Int)) : RLState :=
  us.foldl (fun s u => updateFromHeaders s u.1 u.2) st

theorem if_lt_eq_max (b u : Int) : (if b < u then u else b) = max b u := by
  rcases le_or_lt u b with hub | hbu
  · rw [if_neg (not_lt.mpr hub), max_eq_left hub]
  · rw [if_pos hbu, max_eq_right hbu.le]

theorem ratePart_backoff_eq_amended (st : RLState) (h : Headers) (now : Int) :
    (updateFromHeaders.updateFromRateHeaders st h now).backoffUntil =
      backoffUntilAmended.backoffRateAmended st h now := by
  unfold updateFromHeaders.updateFromRateHeaders backoffUntilAmended.backoffRateAmended
  by_cases hrem : h.rateLimitRemaining = ""
  · simp [hrem]
  · simp only [hrem, if_neg, if_false]
    cases hA : atoi? h.rateLimitRemaining with
    | none => simp
    | some remaining =>
      by_cases hres : h.rateLimitReset = ""
      · simp [hres]
      · simp only [hres, if_neg, if_false]
        cases hB : atoi? h.rateLimitReset with
        | none => simp
        | some resetEpoch =>
          by_cases h0 : remaining ≤ 0
          · simp only [h0, if_pos, if_true]
            rw [← if_lt_eq_max]
            split <;> rfl
          · by_cases h10 : remaining < 10
            · simp only [h0, h10, if_neg, if_pos, if_false, if_true]
              by_cases hpos : 0 < resetEpoch - now
              · simp only [hpos, if_pos, if_true]
                rw [← if_lt_eq_max]
                split <;> rfl
              · simp [hpos]
            · simp [h0, h10]

theorem backoff_eq_amended (st : RLState) (h : Headers) (now : Int) :
    (updateFromHeaders st h now).backoffUntil = backoffUntilAmended st h now := by
  unfold updateFromHeaders backoffUntilAmended
  cases hra : (if h.retryAfter = "" then none else atoi? h.retryAfter) with
  | none => exact ratePart_backoff_eq_amended st h now
  | some sec =>
    by_cases hs : 0 < sec
    · simp only [hs, if_pos, if_true]
      rw [← if_lt_eq_max]
      split <;> rfl
    · simp only [hs, if_neg, if_false]
      exact ratePart_backoff_eq_amended st h now

theorem amended_backoff_le (st : RLState) (h : Headers) (now : Int) :
    st.backoffUntil ≤ backoffUntilAmended st h now := by
  have hrate : st.backoffUntil ≤ backoffUntilAmended.backoffRateAmended st h now := by
    unfold backoffUntilAmended.backoffRateAmended
    cases (if h.rateLimitRemaining = "" then none else atoi? h.rateLimitRemaining) with
    | none => exact le_refl _
    | some remaining =>
      cases (if h.rateLimitReset = "" then none else atoi? h.rateLimitReset) with
      | none => exact le_refl _
      | some resetEpoch =>
        by_cases h0 : remaining ≤ 0
        · simp [h0, le_max_left]
        · by_cases h10 : remaining < 10
          · by_cases hpos : 0 < resetEpoch - now <;> simp [h0, h10, hpos, le_max_left]
          · simp [h0, h10]
  unfold backoffUntilAmended
  cases (if h.retryAfter = "" then none else atoi? h.retryAfter) with
  | none => exact hrate
  | some sec =>
    by_cases hs : 0 < sec
    · simp [hs, le_max_left]
    · simp [hs, hrate]

theorem update_backoff_le (st : RLState) (h : Headers) (now : Int) :
    st.backoffUntil ≤ (updateFromHeaders st h now).backoffUntil := by
  rw [backoff_eq_amended]
  exact amended_backoff_le st h now

/-- C6 counterexample: with no prior backoff, remaining 5 and a reset 10
seconds in the past, the code leaves backoffUntil at the zero time while
the claimed formula moves it to now − 1. -/
theorem c6_counterexample :
    (updateFromHeaders rlInit ⟨"", "5", "990"⟩ 1000).backoffUntil = 0 ∧
    backoffUntilPerClaim rlInit ⟨"", "5", "990"⟩ 1000 = 999 ∧
    (updateFromHeaders rlInit ⟨"", "5", "990"⟩ 1000).backoffUntil ≠
      backoffUntilPerClaim rlInit ⟨"", "5", "990"⟩ 1000 := by
  refine ⟨by decide, by decide, by decide⟩

/-- C6 (amended): UpdateFromHeaders realises the three header cases in
order — Retry-After present and positive extends backoffUntil to
max(backoffUntil, now + Retry-After) and stops; with parseable remaining
and reset, remaining ≤ 0 extends it to max(backoffUntil, reset); remaining
< 10 extends it to max(backoffUntil, now + ceil((reset − now)/(remaining + 1)))
only when reset lies strictly in the future, and otherwise (including
reset ≤ now in the nearly-exhausted case) leaves it unchanged. -/
theorem c6_updateFromHeaders_cases (st : RLState) (h : Headers) (now : Int) :
    (updateFromHeaders st h now).backoffUntil = backoffUntilAmended st h now :=
  backoff_eq_amended st h now

/-- C7: no UpdateFromHeaders call, whatever headers it carries, ever moves
backoffUntil to an earlier time, and along any sequence of calls the
deadline is monotonically non-decreasing. -/
theorem c7_backoff_monotone :
    (∀ (st : RLState) (h : Headers) (now : Int),
        st.backoffUntil ≤ (updateFromHeaders st h now).backoffUntil) ∧
    ∀ (st : RLState) (us : List (Headers × Int)),
        st.backoffUntil ≤ (applyUpdates st us).backoffUntil := by
  refine ⟨update_backoff_le, ?_⟩
  intro st us
  induction us generalizing st with
  | nil => exact le_refl _
  | cons u rest ih =>
    calc st.backoffUntil ≤ (updateFromHeaders st u.1 u.2).backoffUntil :=
          update_backoff_le st u.1 u.2
      _ ≤ (applyUpdates (updateFromHeaders st u.1 u.2) rest).backoffUntil := ih _
      _ = (applyUpdates st (u :: rest)).backoffUntil := rfl

/-! ## Merge-requests collector (internal/collector, MergeRequestsCollector.Run)

Per-merge-request materialization translated from the body of the
`for _, mr := range mrs` loop. Observation values are rationals (the Go
code uses float64); timestamps are integer epoch seconds. -/

/-- The fields of a GitLab merge request that the collector reads. The
nil-able *time.Time fields are options; ChangesCount is the API's
string-valued field. -/
structure MergeRequest where
  state : String
  targetBranch : String
  userNotesCount : Int
  createdAt : Option Int
  mergedAt : Option Int
  closedAt : Option Int
  changesCount : String
deriving Repr, DecidableEq

/-- One decimal-digit accumulation step, `changes = changes*10 + (ch - '0')`. -/
def digitAcc (acc : Nat) (c : Char) : Nat := 10 * acc + (c.toNat - 48)

/-- The collector's rough parse of the string-valued changes_count field:
scan every character of the string and fold each decimal digit into the
accumulator, skipping non-digits. -/
def changesCountValue (s : String) : Nat :=
  s.data.foldl (fun acc c => if c.isDigit then digitAcc acc c else acc) 0

/-- The parse the claim describes: the integer formed by the leading
decimal digits of the string, stopping at the first non-digit. Written
from the specification, for comparison with changesCountValue. -/
def leadingDigitsValue (s : String) : Nat :=
  (s.data.takeWhile Char.isDigit).foldl digitAcc 0

/-- Characterization of changesCountValue used by the amended claim: the
integer formed by all decimal digit characters of the string in order,
non-digits skipped. -/
def allDigitsValue (s : String) : Nat :=
  (s.data.filter Char.isDigit).foldl digitAcc 0

/-- endTime selection for the first-review approximation: mergedAt when
present, else closedAt when present, else now. -/
def mrEndTime (mr : MergeRequest) (now : Int) : Int :=
  match mr.mergedAt with
  | some m => m
  | none =>
    match mr.closedAt with
    | some c => c
    | none => now

/-- The observations one merge request contributes in a single Run cycle.
A `none` means the corresponding list receives no element for this MR. -/
structure MRPerMR where
  notesCountObs : ℚ
  changesCountObs : Option ℚ
  timeToMergeObs : Option ℚ
  openDurationObs : Option ℚ
  timeToFirstReviewObs : Option ℚ
  reviewCyclesObs : Option ℚ
  throughputInc : Bool
deriving Repr, DecidableEq

/-- Translation of the per-MR section of MergeRequestsCollector.Run:
notes count always recorded; changes count recorded when the string field
is non-empty; the state switch records time-to-merge and open-duration and
bumps throughput for merged MRs; the first-review heuristic divides the
MR lifetime by userNotesCount + 1 when there are notes; review cycles are
(userNotesCount + 1) / 2 in Go integer division (the branch only runs for
positive counts, where Go truncation and Lean division agree). -/
def processMR (mr : MergeRequest) (now : Int) : MRPerMR :=
  let ttmObs : Option ℚ :=
    if mr.state = "merged" then
      match mr.mergedAt, mr.createdAt with
      | some m, some c => some ((m - c : Int) : ℚ)
      | _, _ => none
    else none
  { notesCountObs := (mr.userNotesCount : ℚ)
    changesCountObs :=
      if mr.changesCount = "" then none
      else some ((changesCountValue mr.changesCount : Nat) : ℚ)
    timeToMergeObs := ttmObs
    openDurationObs :=
      if mr.state = "merged" then ttmObs
      else if mr.state = "closed" then
        match mr.closedAt, mr.createdAt with
        | some cl, some c => some ((cl - c : Int) : ℚ)
        | _, _ => none
      else if mr.state = "opened" then
        match mr.createdAt with
        | some c => some ((now - c : Int) : ℚ)
        | none => none
      else none
    timeToFirstReviewObs :=
      if 0 < mr.userNotesCount then
        match mr.createdAt with
        | some c =>
          some (((mrEndTime mr now - c : Int) : ℚ) / ((mr.userNotesCount : ℚ) + 1))
        | none => none
      else none
    reviewCyclesObs :=
      if 0 < mr.userNotesCount then some (((mr.userNotesCount + 1) / 2 : Int) : ℚ)
      else none
    throughputInc := mr.state == "merged" }

/-- Go map increment `m[k]++` on an association list. -/
def bumpCount {κ : Type} [DecidableEq κ] : List (κ × Nat) → κ → List (κ × Nat)
  | [], k => [(k, 1)]
  | (k1, v) :: rest, k =>
    if k1 = k then (k1, v + 1) :: rest else (k1, v) :: bumpCount rest k

/-- Go map read `m[k]` (zero for a missing key) on an association list. -/
def countOf {κ : Type} [DecidableEq κ] : List (κ × Nat) → κ → Nat
  | [], _ => 0
  | (k1, v) :: rest, k => if k1 = k then v else countOf rest k

/-- The throughputByBranch update a single merge request performs:
merged MRs bump their target branch, all other states leave the map alone. -/
def throughputStep (mr : MergeRequest) (m : List (String × Nat)) : List (String × Nat) :=
  if mr.state = "merged" then bumpCount m mr.targetBranch else m

theorem countOf_bumpCount {κ : Type} [DecidableEq κ] (m : List (κ × Nat)) (k : κ) :
    countOf (bumpCount m k) k = countOf m k + 1 := by
  induction m with
  | nil => simp [bumpCount, countOf]
  | cons p rest ih =>
    obtain ⟨k1, v⟩ := p
    by_cases hk : k1 = k <;> simp [bumpCount, countOf, hk, ih]

theorem foldl_skip_eq_filter (cs : List Char) (acc : Nat) :
    cs.foldl (fun a c => if c.isDigit then digitAcc a c else a) acc =
      (cs.filter Char.isDigit).foldl digitAcc acc := by
  induction cs generalizing acc with
  | nil => rfl
  | cons c rest ih =>
    by_cases hc : c.isDigit = true <;>
      simp [List.filter_cons, hc, ih]

theorem changesCountValue_eq_allDigits (s : String) :
    changesCountValue s = allDigitsValue s :=
  foldl_skip_eq_filter s.data 0

/-- C5: for every fetched merge request, Run emits a time-to-merge
observation of mergedAt − createdAt and bumps the per-target-branch
throughput count by one when the MR is merged with both timestamps
present; for every MR with userNotesCount > 0 (merged or not) it emits a
first-review observation of (endTime − createdAt) / (userNotesCount + 1)
with endTime = mergedAt when present, else closedAt when present, else
now, and a review-cycles observation of (userNotesCount + 1) / 2 rounded
down; on the S5 fixture (merged 7200 s after creation, 3 notes) the three
observations are 7200, 1800 and 2. -/
theorem c5_mr_analytics (mr : MergeRequest) (now : Int) :
    (∀ m c : Int, mr.state = "merged" → mr.mergedAt = some m → mr.createdAt = some c →
        (processMR mr now).timeToMergeObs = some ((m - c : Int) : ℚ) ∧
        (processMR mr now).throughputInc = true ∧
        ∀ tp : List (String × Nat),
          countOf (throughputStep mr tp) mr.targetBranch = countOf tp mr.targetBranch + 1) ∧
    (∀ c : Int, 0 < mr.userNotesCount → mr.createdAt = some c →
        (∀ m : Int, mr.mergedAt = some m →
            (processMR mr now).timeToFirstReviewObs =
              some (((m - c : Int) : ℚ) / ((mr.userNotesCount : ℚ) + 1))) ∧
        (∀ cl : Int, mr.mergedAt = none → mr.closedAt = some cl →
            (processMR mr now).timeToFirstReviewObs =
              some (((cl - c : Int) : ℚ) / ((mr.userNotesCount : ℚ) + 1))) ∧
        (mr.mergedAt = none → mr.closedAt = none →
            (processMR mr now).timeToFirstReviewObs =
              some (((now - c : Int) : ℚ) / ((mr.userNotesCount : ℚ) + 1)))) ∧
    (0 < mr.userNotesCount →
        (processMR mr now).reviewCyclesObs =
          some ((⌊((mr.userNotesCount : ℚ) + 1) / 2⌋ : Int) : ℚ)) ∧
    (∀ c : Int, mr.state = "merged" → mr.userNotesCount = 3 →
        mr.createdAt = some c → mr.mergedAt = some (c + 7200) →
        (processMR mr now).timeToMergeObs = some (7200 : ℚ) ∧
        (processMR mr now).timeToFirstReviewObs = some (1800 : ℚ) ∧
        (processMR mr now).reviewCyclesObs = some (2 : ℚ)) := by
  have hfloor : ∀ n : Int, ((n + 1) / 2 : Int) = ⌊((n : ℚ) + 1) / 2⌋ := by
    intro n
    have h := Rat.floor_intCast_div_natCast (n + 1) 2
    push_cast at h
    exact h.symm
  refine ⟨?_, ?_, ?_, ?_⟩
  · intro m c hs hm hc
    refine ⟨by simp [processMR, hs, hm, hc], by simp [processMR, hs], ?_⟩
    intro tp
    simp only [throughputStep, hs, if_pos]
    exact countOf_bumpCount tp mr.targetBranch
  · intro c hn hc
    refine ⟨?_, ?_, ?_⟩
    · intro m hm
      have hend : mrEndTime mr now = m := by simp [mrEndTime, hm]
      simp [processMR, hn, hc, hend]
    · intro cl hm hcl
      have hend : mrEndTime mr now = cl := by simp [mrEndTime, hm, hcl]
      simp [processMR, hn, hc, hend]
    · intro hm hcl
      have hend : mrEndTime mr now = now := by simp [mrEndTime, hm, hcl]
      simp [processMR, hn, hc, hend]
  · intro hn
    simp [processMR, hn, hfloor mr.userNotesCount]
  · intro c hs h3 hc hm
    have hpos : (0 : Int) < mr.userNotesCount := by omega
    have hend : mrEndTime mr now = c + 7200 := by simp [mrEndTime, hm]
    have hcast : ((c + 7200 - c : Int) : ℚ) = 7200 := by push_cast; ring
    refine ⟨?_, ?_, ?_⟩
    · have h1 : (processMR mr now).timeToMergeObs = some ((c + 7200 - c : Int) : ℚ) := by
        simp [processMR, hs, hm, hc]
      rw [h1, hcast]
    · have h1 : (processMR mr now).timeToFirstReviewObs =
          some (((c + 7200 - c : Int) : ℚ) / ((mr.userNotesCount : ℚ) + 1)) := by
        simp [processMR, hpos, hc, hend]
      rw [h1, hcast, h3]
      norm_num
    · simp [processMR, hpos, h3]

/-- The merge request of scenario S5: created at 1000, merged 7200 seconds
later, three user notes, target branch main. -/
def s5Fixture : MergeRequest :=
  { state := "merged", targetBranch := "main", userNotesCount := 3,
    createdAt := some 1000, mergedAt := some 8200, closedAt := none,
    changesCount := "5" }

/-- A closed merge request with one user note: closed 600 seconds after
creation, so the first-review approximation falls back to closedAt. -/
def closedFixture : MergeRequest :=
  { state := "closed", targetBranch := "main", userNotesCount := 1,
    createdAt := some 1000, mergedAt := none, closedAt := some 1600,
    changesCount := "" }

/-- A still-open merge request with two user notes and neither mergedAt
nor closedAt, so the first-review approximation falls back to now. -/
def openedFixture : MergeRequest :=
  { state := "opened", targetBranch := "dev", userNotesCount := 2,
    createdAt := some 1000, mergedAt := none, closedAt := none,
    changesCount := "" }

/-- C5 witness: the theorem applied to the S5 fixture (merged branch of
the endTime fallback), to a closed MR (closedAt branch: (1600 − 1000) / 2
= 300, one cycle), and to an open MR at now = 4000 (now branch:
(4000 − 1000) / 3 = 1000). -/
theorem c5_mr_analytics_witness :
    (processMR s5Fixture 9000).timeToMergeObs = some (7200 : ℚ) ∧
    (processMR s5Fixture 9000).timeToFirstReviewObs = some (1800 : ℚ) ∧
    (processMR s5Fixture 9000).reviewCyclesObs = some (2 : ℚ) ∧
    countOf (throughputStep s5Fixture []) "main" = 1 ∧
    (processMR closedFixture 9000).timeToFirstReviewObs = some (300 : ℚ) ∧
    (processMR closedFixture 9000).reviewCyclesObs = some (1 : ℚ) ∧
    (processMR openedFixture 4000).timeToFirstReviewObs = some (1000 : ℚ) := by
  obtain ⟨hA, -, -, hfix⟩ := c5_mr_analytics s5Fixture 9000
  obtain ⟨h1, h2, h3⟩ := hfix 1000 rfl rfl rfl (by norm_num [s5Fixture])
  have hbump := (hA 8200 1000 rfl rfl rfl).2.2 []
  obtain ⟨-, hBc, hCc, -⟩ := c5_mr_analytics closedFixture 9000
  have hcl := (hBc 1000 (by decide) rfl).2.1 1600 rfl rfl
  have hcyc := hCc (by decide)
  obtain ⟨-, hBo, -, -⟩ := c5_mr_analytics openedFixture 4000
  have hop := (hBo 1000 (by decide) rfl).2.2 rfl rfl
  refine ⟨h1, h2, h3, by simpa [s5Fixture] using hbump, ?_, ?_, ?_⟩
  · rw [hcl]; norm_num [closedFixture]
  · rw [hcyc]; norm_num [closedFixture]
  · rw [hop]; norm_num [openedFixture]

/-- A merge request whose changes_count string has a digit after a
non-digit, separating the two readings of the parse. -/
def changesFixture : MergeRequest :=
  { state := "opened", targetBranch := "main", userNotesCount := 0,
    createdAt := none, mergedAt := none, closedAt := none,
    changesCount := "1a2" }

/-- C8 counterexample: for the non-empty changes_count string 1a2 the code
emits 12 (it folds in every digit of the string), while the claimed
leading-digits parse yields 1. -/
theorem c8_counterexample :
    (processMR changesFixture 0).changesCountObs = some (12 : ℚ) ∧
    leadingDigitsValue "1a2" = 1 ∧
    (processMR changesFixture 0).changesCountObs ≠
      some ((leadingDigitsValue "1a2" : Nat) : ℚ) := by
  refine ⟨by decide, by decide, ?_⟩
  intro hcontra
  rw [show leadingDigitsValue "1a2" = 1 from by decide] at hcontra
  have h12 : (processMR changesFixture 0).changesCountObs = some (12 : ℚ) := by decide
  rw [h12] at hcontra
  have h121 : (12 : ℚ) = 1 := Option.some.inj hcontra
  norm_num at h121

/-- C8 (amended): for every merge request the emitted changes-count
observation is the integer formed by all decimal digit characters of the
changes_count string in order, skipping non-digits, and is emitted exactly
when the string is non-empty. -/
theorem c8_changes_count (mr : MergeRequest) (now : Int) :
    (processMR mr now).changesCountObs =
      if mr.changesCount = "" then none
      else some ((allDigitsValue mr.changesCount : Nat) : ℚ) := by
  simp [processMR, changesCountValue_eq_allDigits]

/-! ## Pipelines collector (PipelinesCollector.recordPipeline and Run)

The seven long-lived metric vectors are association lists keyed by label
tuples. A gauge Set replaces the value under a key, a counter Inc bumps
it, a histogram Observe appends to the list of observations under a key. -/

/-- Gauge vector write, WithLabelValues(k).Set(v). -/
def setVal {κ : Type} [DecidableEq κ] : List (κ × ℚ) → κ → ℚ → List (κ × ℚ)
  | [], k, v => [(k, v)]
  | (k1, v1) :: rest, k, v =>
    if k1 = k then (k1, v) :: rest else (k1, v1) :: setVal rest k v

/-- Gauge vector read: the current value under a key, if any. -/
def getVal {κ : Type} [DecidableEq κ] : List (κ × ℚ) → κ → Option ℚ
  | [], _ => none
  | (k1, v1) :: rest, k => if k1 = k then some v1 else getVal rest k

/-- Histogram vector write, WithLabelValues(k).Observe(v). -/
def addObs {κ : Type} [DecidableEq κ] : List (κ × List ℚ) → κ → ℚ → List (κ × List ℚ)
  | [], k, v => [(k, [v])]
  | (k1, vs) :: rest, k, v =>
    if k1 = k then (k1, vs ++ [v]) :: rest else (k1, vs) :: addObs rest k v

/-- Histogram vector read: all observations recorded under a key. -/
def getObs {κ : Type} [DecidableEq κ] : List (κ × List ℚ) → κ → List ℚ
  | [], _ => []
  | (k1, vs) :: rest, k => if k1 = k then vs else getObs rest k

/-- The pipeline fields PipelinesCollector reads. -/
structure Pipeline where
  id : Int
  ref : String
  source : String
  status : String
  duration : Int
  queuedDuration : Int
  coverage : String
  createdAt : Option Int
deriving Repr, DecidableEq

/-- Translation of pipelineKind: the kind label derived from the source. -/
def pipelineKind (p : Pipeline) : String :=
  if p.source = "parent_pipeline" then "child"
  else if p.source = "trigger" ∨ p.source = "pipeline" then "trigger"
  else if p.source = "merge_request_event" then "merge_request"
  else if p.source = "schedule" then "schedule"
  else "branch"

/-- Label tuple project, ref, kind, source, status. -/
abbrev Labels5 := String × String × String × String × String

/-- Label tuple project, ref, kind, source. -/
abbrev Labels4 := String × String × String × String

/-- Label tuple project, ref, kind. -/
abbrev Labels3 := String × String × String

/-- The primary metric vectors of PipelinesCollector. -/
structure PipeVecState where
  durationH : List (Labels5 × List ℚ)
  queuedH : List (Labels4 × List ℚ)
  statusG : List (Labels5 × ℚ)
  runCountC : List (Labels4 × Nat)
  coverageG : List (Labels3 × ℚ)
  idG : List (Labels3 × ℚ)
  createdTsG : List (Labels3 × ℚ)
deriving Repr, DecidableEq

/-- Fresh metric vectors as created by NewPipelinesCollector. -/
def emptyPipeState : PipeVecState :=
  { durationH := [], queuedH := [], statusG := [], runCountC := [],
    coverageG := [], idG := [], createdTsG := [] }

/-- Translation of PipelinesCollector.recordPipeline. The covParse
parameter stands for the fmt.Sscanf float parse of the coverage string
(the claims under proof do not depend on its value). Duration and queued
duration are observed only when strictly positive; the status gauge, run
counter, and latest-id gauge are written unconditionally; the creation
timestamp gauge is written when the pipeline carries a creation time. -/
def recordPipeline (covParse : String → Option ℚ) (project : String)
    (p : Pipeline) (s : PipeVecState) : PipeVecState :=
  let kind := pipelineKind p
  let k5 : Labels5 := (project, p.ref, kind, p.source, p.status)
  let k4 : Labels4 := (project, p.ref, kind, p.source)
  let k3 : Labels3 := (project, p.ref, kind)
  let s1 :=
    if 0 < p.duration then { s with durationH := addObs s.durationH k5 ((p.duration : Int) : ℚ) }
    else s
  let s2 :=
    if 0 < p.queuedDuration then
      { s1 with queuedH := addObs s1.queuedH k4 ((p.queuedDuration : Int) : ℚ) }
    else s1
  let s3 := { s2 with statusG := setVal s2.statusG k5 1,
                      runCountC := bumpCount s2.runCountC k4 }
  let s4 :=
    if p.coverage = "" then s3
    else
      match covParse p.coverage with
      | some cov => { s3 with coverageG := setVal s3.coverageG k3 cov }
      | none => s3
  let s5 := { s4 with idG := setVal s4.idG k3 ((p.id : Int) : ℚ) }
  match p.createdAt with
  | some t => { s5 with createdTsG := setVal s5.createdTsG k3 ((t : Int) : ℚ) }
  | none => s5

theorem getObs_addObs {κ : Type} [DecidableEq κ] (m : List (κ × List ℚ)) (k : κ) (v : ℚ) :
    getObs (addObs m k v) k = getObs m k ++ [v] := by
  induction m with
  | nil => simp [addObs, getObs]
  | cons p rest ih =>
    obtain ⟨k1, vs⟩ := p
    by_cases hk : k1 = k <;> simp [addObs, getObs, hk, ih]

theorem getVal_setVal {κ : Type} [DecidableEq κ] (m : List (κ × ℚ)) (k : κ) (v : ℚ) :
    getVal (setVal m k v) k = some v := by
  induction m with
  | nil => simp [setVal, getVal]
  | cons p rest ih =>
    obtain ⟨k1, v1⟩ := p
    by_cases hk : k1 = k <;> simp [setVal, getVal, hk, ih]

/-- C10: recordPipeline appends a duration histogram sample exactly when
the pipeline's duration is strictly positive and a queued-duration sample
exactly when its queued duration is strictly positive, while the status
gauge is set to 1 and the run counter incremented unconditionally — a
zero-duration pipeline still bumps the run counter but contributes no
duration observation. -/
theorem c10_recordPipeline_guards (covParse : String → Option ℚ)
    (project : String) (p : Pipeline) (s : PipeVecState) :
    getObs (recordPipeline covParse project p s).durationH
        (project, p.ref, pipelineKind p, p.source, p.status) =
      (if 0 < p.duration then
        getObs s.durationH (project, p.ref, pipelineKind p, p.source, p.status) ++
          [((p.duration : Int) : ℚ)]
      else getObs s.durationH (project, p.ref, pipelineKind p, p.source, p.status)) ∧
    getObs (recordPipeline covParse project p s).queuedH
        (project, p.ref, pipelineKind p, p.source) =
      (if 0 < p.queuedDuration then
        getObs s.queuedH (project, p.ref, pipelineKind p, p.source) ++
          [((p.queuedDuration : Int) : ℚ)]
      else getObs s.queuedH (project, p.ref, pipelineKind p, p.source)) ∧
    getVal (recordPipeline covParse project p s).statusG
        (project, p.ref, pipelineKind p, p.source, p.status) = some 1 ∧
    countOf (recordPipeline covParse project p s).runCountC
        (project, p.ref, pipelineKind p, p.source) =
      countOf s.runCountC (project, p.ref, pipelineKind p, p.source) + 1 := by
  unfold recordPipeline
  cases p.createdAt with
  | none =>
    by_cases hd : 0 < p.duration <;> by_cases hq : 0 < p.queuedDuration <;>
      by_cases hcov : p.coverage = "" <;>
      cases hcp : covParse p.coverage <;>
      simp [hd, hq, hcov, hcp, getObs_addObs, getVal_setVal, countOf_bumpCount]
  | some t =>
    by_cases hd : 0 < p.duration <;> by_cases hq : 0 < p.queuedDuration <;>
      by_cases hcov : p.coverage = "" <;>
      cases hcp : covParse p.coverage <;>
      simp [hd, hq, hcov, hcp, getObs_addObs, getVal_setVal, countOf_bumpCount]

/-! ## Scrape concurrency (Run versus Collect)

PipelinesCollector.recordPipeline takes and releases the collector lock
once per pipeline, so every intermediate vector state is readable by a
concurrent Collect. MergeRequestsCollector.Run builds its snapshot in a
local variable and swaps it into the published field in one write-lock
section, so the only readable states are the old and the new snapshot. -/

/-- The vector states observable by a concurrent scrape while the
pipelines Run processes the given pipelines of one project, one state per
release of the lock. -/
def pipelinesRunStates (covParse : String → Option ℚ) (project : String)
    (s0 : PipeVecState) (ps : List Pipeline) : List PipeVecState :=
  ps.scanl (fun s p => recordPipeline covParse project p s) s0

/-- First pipeline of scenario S1. -/
def pipeA : Pipeline :=
  { id := 10, ref := "main", source := "push", status := "success",
    duration := 120, queuedDuration := 3, coverage := "", createdAt := none }

/-- Second pipeline of scenario S1, on another ref. -/
def pipeB : Pipeline :=
  { id := 9, ref := "dev", source := "push", status := "failed",
    duration := 45, queuedDuration := 1, coverage := "", createdAt := none }

/-- A coverage parse that always fails (the fixture pipelines carry no
coverage string, so the parse is never consulted). -/
def covNone : String → Option ℚ := fun _ => none

/-- Vector state after the first of the two recordPipeline lock sections. -/
def pipeMidState : PipeVecState := recordPipeline covNone "demo/app" pipeA emptyPipeState

/-- Vector state after the run completes. -/
def pipeEndState : PipeVecState := recordPipeline covNone "demo/app" pipeB pipeMidState

/-- C3 counterexample: while the pipelines collector runs over two
pipelines, the state after the first recordPipeline is observable by a
concurrent scrape, yet differs from both the pre-run state and the
completed-run state — a mixture in which one observation of the
in-progress run is visible and the other is not. -/
theorem c3_counterexample :
    pipeMidState ∈ pipelinesRunStates covNone "demo/app" emptyPipeState [pipeA, pipeB] ∧
    pipeMidState ≠ emptyPipeState ∧
    pipeMidState ≠ pipeEndState := by
  refine ⟨?_, by decide, by decide⟩
  simp [pipelinesRunStates, List.scanl, pipeMidState]

/-- The observation snapshot MergeRequestsCollector.Run builds locally
before publishing it: labeled values for the six value families plus the
per-branch status and throughput counts. -/
structure MRRunObs where
  timeToMerge : List ((String × String) × ℚ)
  timeToFirstReview : List ((String × String) × ℚ)
  reviewCycles : List ((String × String) × ℚ)
  changesCount : List ((String × String) × ℚ)
  notesCount : List ((String × String) × ℚ)
  openDuration : List ((String × String) × ℚ)
  statusCounts : List ((String × String) × Nat)
  throughput : List (String × Nat)
deriving Repr, DecidableEq

/-- The zero snapshot, mergeRequestObservations at its zero value. -/
def emptyMRRunObs : MRRunObs :=
  { timeToMerge := [], timeToFirstReview := [], reviewCycles := [],
    changesCount := [], notesCount := [], openDuration := [],
    statusCounts := [], throughput := [] }

/-- Append an optional labeled observation to a value list. -/
def appendOpt (ls : List ((String × String) × ℚ)) (lab : String × String) :
    Option ℚ → List ((String × String) × ℚ)
  | some v => ls ++ [(lab, v)]
  | none => ls

/-- One iteration of the merge-request loop folded into the locally built
snapshot: each family receives this MR's observation when present, the
status count for (branch, state) is bumped, and merged MRs bump their
branch's throughput. -/
def mrAccum (project : String) (now : Int) (o : MRRunObs) (mr : MergeRequest) : MRRunObs :=
  let lab := (project, mr.targetBranch)
  let d := processMR mr now
  { timeToMerge := appendOpt o.timeToMerge lab d.timeToMergeObs
    timeToFirstReview := appendOpt o.timeToFirstReview lab d.timeToFirstReviewObs
    reviewCycles := appendOpt o.reviewCycles lab d.reviewCyclesObs
    changesCount := appendOpt o.changesCount lab d.changesCountObs
    notesCount := o.notesCount ++ [(lab, d.notesCountObs)]
    openDuration := appendOpt o.openDuration lab d.openDurationObs
    statusCounts := bumpCount o.statusCounts (mr.targetBranch, mr.state)
    throughput := throughputStep mr o.throughput }

/-- The snapshot one Run cycle builds over one project's merge requests. -/
def mrRunObs (project : String) (now : Int) (mrs : List MergeRequest) : MRRunObs :=
  mrs.foldl (mrAccum project now) emptyMRRunObs

/-- The published observation states a concurrent Collect can read while
the merge-requests Run executes: the loop mutates only its local
snapshot, so at every iteration boundary the published field still holds
the previous snapshot; the single write under the lock at the end swaps
in the completed one. -/
def mrRunPublished (old : MRRunObs) (project : String) (now : Int)
    (mrs : List MergeRequest) : List MRRunObs :=
  mrs.map (fun _ => old) ++ [mrRunObs project now mrs]

/-- C3 (amended): a /metrics scrape concurrent with a merge-requests Run
reads either the previous complete snapshot or the new complete one, never
a mixture; the pipelines collector lacks this property — between its
per-pipeline lock sections a scrape can read vector state that matches
neither the pre-run state nor the completed-run state. -/
theorem c3_snapshot_isolation :
    (∀ (old : MRRunObs) (project : String) (now : Int) (mrs : List MergeRequest)
        (s : MRRunObs), s ∈ mrRunPublished old project now mrs →
        s = old ∨ s = mrRunObs project now mrs) ∧
    (pipeMidState ∈ pipelinesRunStates covNone "demo/app" emptyPipeState [pipeA, pipeB] ∧
      pipeMidState ≠ emptyPipeState ∧
      pipeMidState ≠ pipeEndState) := by
  constructor
  · intro old project now mrs s hs
    rcases List.mem_append.mp hs with hmem | hmem
    · left
      rcases List.mem_map.mp hmem with ⟨a, -, heq⟩
      exact heq.symm
    · right
      simpa using hmem
  · refine ⟨?_, by decide, by decide⟩
    simp [pipelinesRunStates, List.scanl, pipeMidState]

/-- C3 witness: the isolation half applied to a concrete empty run, and
the mixture half evaluated on the concrete two-pipeline run. -/
theorem c3_snapshot_isolation_witness :
    (emptyMRRunObs = emptyMRRunObs ∨ emptyMRRunObs = mrRunObs "demo/app" 0 []) ∧
    pipeMidState ≠ emptyPipeState := by
  have h := c3_snapshot_isolation
  refine ⟨h.1 emptyMRRunObs "demo/app" 0 [] emptyMRRunObs ?_, h.2.2.1⟩
  simp [mrRunPublished, mrRunObs]

/-! ## Scheduler (internal/scheduler, Task.Run and Task.execute)

Task.Run executes once on entry, then once per ticker tick, returning on
context cancellation. Task.execute logs the outcome of runFunc but
contains no recover, so a runtime panic inside runFunc propagates out of
execute and Run and terminates the worker goroutine (only the on-demand
TaskQueue.Start has a recover). The n-th invocation of runFunc is
modelled by a function from invocation index to outcome; the worker's
environment is a finite list of wakeups, each a ticker tick or a context
cancellation. -/

/-- Outcome of one runFunc invocation. -/
inductive RunOutcome
  | ok
  | failed
  | panicked
deriving Repr, DecidableEq

/-- A wakeup of the worker's select loop. -/
inductive SchedEvent
  | tick
  | cancel
deriving Repr, DecidableEq

/-- How the worker stands after consuming the wakeups: still blocked in
select, returned cleanly on cancellation, or killed by a panic. -/
inductive WorkerEnd
  | running
  | clean
  | crashed
deriving Repr, DecidableEq

/-- The select loop of Task.Run from invocation index n onwards: a cancel
wakeup returns cleanly, a tick wakeup invokes runFunc — an error outcome
is logged and the loop continues, a panic propagates and kills the
worker. -/
def taskLoop (f : Nat → RunOutcome) : Nat → List SchedEvent → List RunOutcome × WorkerEnd
  | _, [] => ([], .running)
  | _, .cancel :: _ => ([], .clean)
  | n, .tick :: rest =>
    match f n with
    | .panicked => ([.panicked], .crashed)
    | o =>
      let r := taskLoop f (n + 1) rest
      (o :: r.1, r.2)

/-- Translation of Task.Run: execute immediately on entry, then run the
select loop. Returns the performed invocations and the worker's end
state. -/
def taskRun (f : Nat → RunOutcome) (events : List SchedEvent) : List RunOutcome × WorkerEnd :=
  match f 0 with
  | .panicked => ([.panicked], .crashed)
  | o =>
    let r := taskLoop f 1 events
    (o :: r.1, r.2)

/-- The worker loop as the claim describes it: identical, except that a
panic inside runFunc is recovered and logged, so the loop continues.
Written from the specification, for comparison with taskRun. -/
def taskLoopClaim (f : Nat → RunOutcome) : Nat → List SchedEvent → List RunOutcome × WorkerEnd
  | _, [] => ([], .running)
  | _, .cancel :: _ => ([], .clean)
  | n, .tick :: rest =>
    let r := taskLoopClaim f (n + 1) rest
    (f n :: r.1, r.2)

/-- The claim's version of Task.Run, with panic recovery. -/
def taskRunClaim (f : Nat → RunOutcome) (events : List SchedEvent) :
    List RunOutcome × WorkerEnd :=
  let r := taskLoopClaim f 1 events
  (f 0 :: r.1, r.2)

/-- A runFunc that panics on every invocation. -/
def alwaysPanics : Nat → RunOutcome := fun _ => RunOutcome.panicked

/-- C9 counterexample: when the first invocation panics, the worker dies
after one invocation instead of recovering; under the claimed recovery
semantics it would run again on the tick and exit cleanly on the cancel. -/
theorem c9_counterexample :
    taskRun alwaysPanics [SchedEvent.tick, SchedEvent.cancel] =
      ([RunOutcome.panicked], WorkerEnd.crashed) ∧
    taskRunClaim alwaysPanics [SchedEvent.tick, SchedEvent.cancel] =
      ([RunOutcome.panicked, RunOutcome.panicked], WorkerEnd.clean) ∧
    (taskRun alwaysPanics [SchedEvent.tick, SchedEvent.cancel]).2 ≠ WorkerEnd.clean := by
  refine ⟨rfl, rfl, by decide⟩

theorem range_succ_map {α : Type} (f : Nat → α) (k : Nat) :
    (List.range (k + 1)).map f = f 0 :: (List.range k).map (fun i => f (1 + i)) := by
  rw [List.range_succ_eq_map]
  simp [List.map_map, Function.comp_def, Nat.one_add]

theorem taskLoop_no_panic (f : Nat → RunOutcome) (h : ∀ n, f n ≠ RunOutcome.panicked) :
    ∀ (events : List SchedEvent) (n : Nat),
      (taskLoop f n events).1 =
        (List.range (events.takeWhile (fun e => e == SchedEvent.tick)).length).map
          (fun i => f (n + i)) ∧
      (taskLoop f n events).2 =
        (if events.contains SchedEvent.cancel then WorkerEnd.clean else WorkerEnd.running) := by
  intro events
  induction events with
  | nil => intro n; simp [taskLoop]
  | cons e rest ih =>
    intro n
    cases e with
    | cancel => simp [taskLoop]
    | tick =>
      have hrec := ih (n + 1)
      cases hf : f n with
      | panicked => exact absurd hf (h n)
      | ok =>
        constructor
        · simp only [taskLoop, hf, hrec.1, List.takeWhile_cons]
          simp [range_succ_map (fun i => f (n + i)), hf, Nat.add_assoc]
        · simp [taskLoop, hf, hrec.2]
      | failed =>
        constructor
        · simp only [taskLoop, hf, hrec.1, List.takeWhile_cons]
          simp [range_succ_map (fun i => f (n + i)), hf, Nat.add_assoc]
        · simp [taskLoop, hf, hrec.2]

/-- C9 (amended): the worker invokes runFunc immediately on start and then
once per tick; an error outcome is logged and the loop continues; the
loop exits cleanly when the context is cancelled; but a panic inside
runFunc is not recovered — it propagates and terminates the worker after
the panicking invocation. -/
theorem c9_scheduler_loop (f : Nat → RunOutcome) (events : List SchedEvent) :
    ((∀ n, f n ≠ RunOutcome.panicked) →
      (taskRun f events).1 =
        (List.range (1 + (events.takeWhile (fun e => e == SchedEvent.tick)).length)).map f ∧
      (taskRun f events).2 =
        (if events.contains SchedEvent.cancel then WorkerEnd.clean else WorkerEnd.running)) ∧
    (f 0 = RunOutcome.panicked →
      taskRun f events = ([RunOutcome.panicked], WorkerEnd.crashed)) := by
  constructor
  · intro h
    have hloop := taskLoop_no_panic f h events 1
    cases hf : f 0 with
    | panicked => exact absurd hf (h 0)
    | ok =>
      constructor
      · simp only [taskRun, hf, hloop.1]
        rw [Nat.add_comm 1, range_succ_map f]
        simp [hf]
      · simp [taskRun, hf, hloop.2]
    | failed =>
      constructor
      · simp only [taskRun, hf, hloop.1]
        rw [Nat.add_comm 1, range_succ_map f]
        simp [hf]
      · simp [taskRun, hf, hloop.2]
  · intro hf
    simp [taskRun, hf]

/-- C9 witness: a runFunc that always returns an error, over one tick and
a cancel — two invocations performed, clean exit; and the panic clause at
the always-panicking runFunc. -/
theorem c9_scheduler_loop_witness :
    (taskRun (fun _ => RunOutcome.failed) [SchedEvent.tick, SchedEvent.cancel]).1 =
      [RunOutcome.failed, RunOutcome.failed] ∧
    (taskRun (fun _ => RunOutcome.failed) [SchedEvent.tick, SchedEvent.cancel]).2 =
      WorkerEnd.clean ∧
    taskRun alwaysPanics [] = ([RunOutcome.panicked], WorkerEnd.crashed) := by
  have h := c9_scheduler_loop (fun _ => RunOutcome.failed) [SchedEvent.tick, SchedEvent.cancel]
  have hp := (c9_scheduler_loop alwaysPanics []).2 rfl
  obtain ⟨ha, hb⟩ := h.1 (fun n => by simp)
  refine ⟨?_, ?_, hp⟩
  · rw [ha]; rfl
  · rw [hb]; rfl

/-! ## Tier detection and collector registration (exporter orchestrator)

NewExporter builds the GitLab client, chooses the store, then at its
third step reads client.Features() — but gitlabclient.New leaves the
features field at its zero value (nil), and no code in the repository
ever calls TierDetector.Detect or Client.SetFeatures, so the features
passed to registerCollectors are always nil. registerCollectors writes
each definition's effective enabled flag to the age_collector_enabled
gauge and registers (and schedules) only the enabled definitions. -/

/-- The capability record of TierDetector.Detect. -/
structure DetectedFeatures where
  hasDORA : Bool
  hasValueStream : Bool
  hasMRAnalytics : Bool
  hasCodeReview : Bool
  tier : Int
  gitLabVersion : String
deriving Repr, DecidableEq

/-- Translation of TierDetector.deriveTier: DORA implies Ultimate (2),
any premium probe implies Premium (1), otherwise Free (0). -/
def deriveTier (hasDORA hasValueStream hasMRAnalytics hasCodeReview : Bool) : Int :=
  if hasDORA then 2
  else if hasValueStream || hasMRAnalytics || hasCodeReview then 1
  else 0

/-- The per-collector configuration fields the orchestrator reads. -/
structure CollectorConfig where
  enabled : Bool
  intervalSeconds : Int
deriving Repr, DecidableEq

/-- The ten collector configurations under Config.Collectors. -/
structure CollectorsConfig where
  pipelines : CollectorConfig
  jobs : CollectorConfig
  mergeRequests : CollectorConfig
  environments : CollectorConfig
  testReports : CollectorConfig
  dora : CollectorConfig
  valueStream : CollectorConfig
  codeReview : CollectorConfig
  repository : CollectorConfig
  contributors : CollectorConfig
deriving Repr, DecidableEq

/-- The client field NewExporter consults for tier gating. -/
structure MClient where
  features : Option DetectedFeatures
deriving Repr, DecidableEq

/-- gitlabclient.New: the returned client's features field is its zero
value (nil); only SetFeatures would write it. -/
def clientNew : MClient := { features := none }

/-- The collectorDef table of registerCollectors, reduced to name and
effective enabled flag: config-only for seven collectors, and
configEnabled AND features-non-nil AND capability for the three
tier-gated ones. -/
def collectorDefs (cfg : CollectorsConfig) (features : Option DetectedFeatures) :
    List (String × Bool) :=
  [("pipelines", cfg.pipelines.enabled),
   ("jobs", cfg.jobs.enabled),
   ("merge_requests", cfg.mergeRequests.enabled),
   ("environments", cfg.environments.enabled),
   ("test_reports", cfg.testReports.enabled),
   ("dora", cfg.dora.enabled &&
      match features with | some f => f.hasDORA | none => false),
   ("value_stream", cfg.valueStream.enabled &&
      match features with | some f => f.hasValueStream | none => false),
   ("code_review", cfg.codeReview.enabled &&
      match features with | some f => f.hasCodeReview | none => false),
   ("repository", cfg.repository.enabled),
   ("contributors", cfg.contributors.enabled)]

/-- registerCollectors skips a disabled definition before Register: only
the names of enabled definitions reach the registry (and the
scheduler). -/
def registeredNames (cfg : CollectorsConfig) (features : Option DetectedFeatures) :
    List String :=
  ((collectorDefs cfg features).filter (fun d => d.2)).map (fun d => d.1)

/-- The age_collector_enabled gauge written by registerCollectors: one
sample per definition carrying its effective enabled flag. -/
def collectorEnabledGauge (cfg : CollectorsConfig) (features : Option DetectedFeatures) :
    List (String × Bool) :=
  collectorDefs cfg features

/-- Gauge lookup by collector name. -/
def lookupFlag : List (String × Bool) → String → Option Bool
  | [], _ => none
  | (k, v) :: rest, name => if k = name then some v else lookupFlag rest name

/-- The features NewExporter passes to registerCollectors: read off the
freshly built client, with no detection step in between. -/
def newExporterFeatures : Option DetectedFeatures := clientNew.features

/-- The collector names registered during startup. -/
def newExporterRegisteredNames (cfg : CollectorsConfig) : List String :=
  registeredNames cfg newExporterFeatures

theorem mem_registered_iff (l : List (String × Bool)) (name : String) :
    name ∈ (l.filter (fun d => d.2)).map (fun d => d.1) ↔ (name, true) ∈ l := by
  induction l with
  | nil => simp
  | cons p rest ih =>
    obtain ⟨k, b⟩ := p
    cases b <;> simp [List.filter_cons, ih, eq_comm]

/-- C1: tier detection never runs during startup — NewExporter reads the
features off the freshly built client, which are nil, so whatever the
configuration says and however the instance would answer the probes, the
DORA (and the other tier-gated) collectors end up effectively disabled
and unregistered, and the age_collector_enabled gauge records 0 for
them. -/
theorem c1_tier_detection_skipped (cfg : CollectorsConfig) :
    newExporterFeatures = none ∧
    lookupFlag (collectorEnabledGauge cfg newExporterFeatures) "dora" = some false ∧
    "dora" ∉ newExporterRegisteredNames cfg ∧
    "value_stream" ∉ newExporterRegisteredNames cfg ∧
    "code_review" ∉ newExporterRegisteredNames cfg := by
  refine ⟨rfl, ?_, ?_, ?_, ?_⟩
  · simp [collectorEnabledGauge, collectorDefs, newExporterFeatures, clientNew, lookupFlag]
  · rw [newExporterRegisteredNames, registeredNames, mem_registered_iff]
    simp [collectorDefs, newExporterFeatures, clientNew]
  · rw [newExporterRegisteredNames, registeredNames, mem_registered_iff]
    simp [collectorDefs, newExporterFeatures, clientNew]
  · rw [newExporterRegisteredNames, registeredNames, mem_registered_iff]
    simp [collectorDefs, newExporterFeatures, clientNew]

/-- A configuration with every collector enabled except pipelines. -/
def cfgPipelinesOff : CollectorsConfig :=
  { pipelines := { enabled := false, intervalSeconds := 30 },
    jobs := { enabled := true, intervalSeconds := 30 },
    mergeRequests := { enabled := true, intervalSeconds := 120 },
    environments := { enabled := true, intervalSeconds := 300 },
    testReports := { enabled := true, intervalSeconds := 60 },
    dora := { enabled := true, intervalSeconds := 3600 },
    valueStream := { enabled := true, intervalSeconds := 3600 },
    codeReview := { enabled := true, intervalSeconds := 300 },
    repository := { enabled := true, intervalSeconds := 3600 },
    contributors := { enabled := true, intervalSeconds := 3600 } }

/-- C4 counterexample: a definition disabled by configuration (pipelines)
appears in the definition table but is skipped before Register, so it is
not in the registry — contradicting the claim that every definition,
disabled ones included, is registered. -/
theorem c4_counterexample :
    ("pipelines", false) ∈ collectorDefs cfgPipelinesOff newExporterFeatures ∧
    "pipelines" ∉ newExporterRegisteredNames cfgPipelinesOff := by
  refine ⟨by decide, ?_⟩
  rw [newExporterRegisteredNames, registeredNames, mem_registered_iff]
  decide

/-- A registered collector as the Registry sees it: name, Enabled() flag,
descriptors, and current values. -/
structure SimpleCollector where
  cname : String
  enabledFlag : Bool
  descs : List String
  vals : List String
deriving Repr, DecidableEq

/-- Registry.Describe: forwards descriptors from every registered
collector, enabled or not. -/
def registryDescribe (rs : List SimpleCollector) : List String :=
  rs.flatMap (fun c => c.descs)

/-- Registry.Collect: forwards values only from registered collectors
whose Enabled() is true. -/
def registryCollect (rs : List SimpleCollector) : List String :=
  (rs.filter (fun c => c.enabledFlag)).flatMap (fun c => c.vals)

/-- C4 (amended): only collector definitions whose effective enabled flag
is true are constructed and registered — a disabled definition is skipped,
not registered; on whatever is registered, the registry's Describe
forwards descriptors from every registered collector and Collect forwards
values exactly from the registered collectors whose Enabled() is true. -/
theorem c4_registry (cfg : CollectorsConfig) (features : Option DetectedFeatures)
    (name : String) (rs : List SimpleCollector) (c : SimpleCollector) (v : String) :
    (name ∈ registeredNames cfg features ↔ (name, true) ∈ collectorDefs cfg features) ∧
    (c ∈ rs → c.descs.Subset (registryDescribe rs)) ∧
    (v ∈ registryCollect rs ↔ ∃ c2 ∈ rs, c2.enabledFlag = true ∧ v ∈ c2.vals) := by
  refine ⟨mem_registered_iff _ _, ?_, ?_⟩
  · intro hc d hd
    exact List.mem_flatMap.mpr ⟨c, hc, hd⟩
  · constructor
    · intro hv
      rcases List.mem_flatMap.mp hv with ⟨c2, hc2, hvc⟩
      rcases List.mem_filter.mp hc2 with ⟨hc2m, hc2e⟩
      exact ⟨c2, hc2m, hc2e, hvc⟩
    · rintro ⟨c2, hc2m, hc2e, hvc⟩
      exact List.mem_flatMap.mpr ⟨c2, List.mem_filter.mpr ⟨hc2m, hc2e⟩, hvc⟩

/-- An enabled collector fixture for the registry. -/
def regFixtureA : SimpleCollector :=
  { cname := "pipelines", enabledFlag := true, descs := ["d1"], vals := ["v1"] }

/-- A registered-but-disabled collector fixture for the registry. -/
def regFixtureB : SimpleCollector :=
  { cname := "dora", enabledFlag := false, descs := ["d2"], vals := ["v2"] }

/-- C4 witness: in a registry holding an enabled and a disabled collector,
the disabled one's descriptors still reach Describe, and Collect carries
exactly the enabled one's values. -/
theorem c4_registry_witness :
    regFixtureB.descs.Subset (registryDescribe [regFixtureA, regFixtureB]) ∧
    ("v1" ∈ registryCollect [regFixtureA, regFixtureB] ↔
      ∃ c2 ∈ [regFixtureA, regFixtureB], c2.enabledFlag = true ∧ "v1" ∈ c2.vals) := by
  have h := c4_registry cfgPipelinesOff none "jobs" [regFixtureA, regFixtureB] regFixtureB "v1"
  exact ⟨h.2.1 (by decide), h.2.2⟩

/-! ## Rate-limit protocol around outbound calls

Client.DoREST and the typed Client methods wait on the rate limiter
before dispatch and feed response headers back afterwards. The collectors
do not call them: they fetch through the raw go-gitlab client returned by
Client.REST(), which never touches the exporter's RateLimiter. -/

/-- Exporter-level events around one HTTP request. -/
inductive APIEvent
  | rlWait
  | dispatch
  | rlUpdate
deriving Repr, DecidableEq

/-- Trace of Client.DoREST: Wait first (a Wait failure produces no
request); a body-marshal or request-build failure returns before any
dispatch; otherwise the request is dispatched and, whenever a response
object arrives (success or error status alike), its headers are fed back
to the rate limiter. -/
def doRESTTrace (waitOk marshalOk buildOk respReceived : Bool) : List APIEvent :=
  if !waitOk then []
  else
    [.rlWait] ++
      (if !marshalOk then []
       else if !buildOk then []
       else [.dispatch] ++ (if respReceived then [.rlUpdate] else []))

/-- Trace of one HTTP request issued through the raw go-gitlab client
returned by Client.REST(), as the collectors do: the request is
dispatched with no RateLimiter.Wait and no UpdateFromHeaders feedback. -/
def rawCallTrace : List APIEvent := [APIEvent.dispatch]

/-- Trace of PipelinesCollector.collectProject with child discovery off:
one raw list-pipelines request, then one raw get-pipeline request per
listed pipeline. -/
def collectProjectTrace (pipelineCount : Nat) : List APIEvent :=
  rawCallTrace ++ (List.range pipelineCount).flatMap (fun _ => rawCallTrace)

/-- Number of satisfied RateLimiter.Wait calls in a trace. -/
def countWait (t : List APIEvent) : Nat := t.count APIEvent.rlWait

/-- Number of dispatched requests in a trace. -/
def countDispatch (t : List APIEvent) : Nat := t.count APIEvent.dispatch

/-- C2: the pipelines collector's per-project fetch goes through the raw
go-gitlab client — on a project with one listed pipeline it dispatches
two requests while RateLimiter.Wait is satisfied zero times, refuting the
claimed equality of Wait satisfactions and dispatches; by contrast a
successful Client.DoREST call is exactly Wait, dispatch, header
feedback. -/
theorem c2_collectors_bypass_rate_limiter :
    countWait (collectProjectTrace 1) = 0 ∧
    countDispatch (collectProjectTrace 1) = 2 ∧
    countWait (collectProjectTrace 1) ≠ countDispatch (collectProjectTrace 1) ∧
    doRESTTrace true true true true =
      [APIEvent.rlWait, APIEvent.dispatch, APIEvent.rlUpdate] := by
  refine ⟨by decide, by decide, by decide, by decide⟩

end AGE
